import Mathlib

/-!
Verification development for the `frequenpy` beaded-string oscillator.

The physics core lives in `src/oscillators/beaded_string.py`. This file gives a
shallow embedding of that core over exact real arithmetic: the configuration
fields stored by `BeadedString.__init__`, the tridiagonal coupling matrix built
by `_tridiagonal_matrix`, the eigenvalue post-processing of `_omega_squared`,
the mode-shape formulas of `_normal_mode_p_for_mass_n`, the displacement
superposition of `_position_for_mass_n_at_time_t`, and the frame assembly of
`_beads_coordinates` / `_build_frames`. The eigen-decomposition itself
(`np.linalg.eig`) is an external LAPACK routine; where a result depends on the
spectrum, the embedding takes the computed spectrum as an explicit parameter.
-/

namespace FrequenPy

noncomputable section

/-- Module-level constant `BOUNDARY_FIXED = 0` from the source. The source keeps
boundary conditions as loose integers, so the embedding uses `ℤ`. -/
def BOUNDARY_FIXED : ℤ := 0

/-- Module-level constant `BOUNDARY_FREE = 1` from the source. -/
def BOUNDARY_FREE : ℤ := 1

/-- Module-level constant `BOUNDARY_MIXED = 2` from the source. -/
def BOUNDARY_MIXED : ℤ := 2

/-- The fields stored by `BeadedString.__init__` that the physics core reads
(`save_animation` is presentation-only and omitted). `__init__` stores the
arguments unchanged and performs no validation. -/
structure BeadedString where
  number_of_masses : ℕ
  normal_modes : List ℕ
  boundary_condition : ℤ
  longitude : ℝ
  amplitude : ℝ
  number_of_frames : ℕ
  speed : ℝ

/-- Field `self._separation = longitude / (number_of_masses + 1)` from `__init__`. -/
def separation (s : BeadedString) : ℝ :=
  s.longitude / (s.number_of_masses + 1)

/-- The error taxonomy named by the specification (the source itself raises
none of these). -/
inductive CoreError where
  | InvalidMassCount
  | InvalidBoundaryCondition
  | NumericInstability
deriving DecidableEq

/-- Entry `(i, j)` of `np.eye(N, N, k)`: `1` on the `k`-th diagonal
(`j = i + k`) inside the `N × N` block, `0` elsewhere. -/
def np_eye (N : ℕ) (k : ℤ) (i j : ℕ) : ℝ :=
  if i < N ∧ j < N ∧ (j : ℤ) = (i : ℤ) + k then 1 else 0

/-- Method `_tridiagonal_matrix`: with `(low, mid, upp) = (-1, 2, -1)`,
`A = np.eye(N,N,k=-1)*low + np.eye(N,N)*mid + np.eye(N,N,k=1)*upp`.
The subsequent statement `A[A == 0.] = 0.` rewrites the zero entries with `0.`
and is the identity, so it is not reflected here. The matrix is represented as
a total function on indices; entries outside the `N × N` block are `0`. -/
def tridiagonal_matrix (s : BeadedString) : ℕ → ℕ → ℝ := fun i j =>
  np_eye s.number_of_masses (-1) i j * (-1)
    + np_eye s.number_of_masses 0 i j * 2
    + np_eye s.number_of_masses 1 i j * (-1)

/-- The construction of the coupling matrix as a fallible step, mirroring the
Python call-site semantics: the only way `_tridiagonal_matrix` could fail is an
exception out of `np.eye`, and `np.eye` accepts every non-negative size
(size `0` yields an empty matrix), so construction succeeds for every
`number_of_masses : ℕ`. No `InvalidMassCount` check exists in the source. -/
def build_tridiagonal (s : BeadedString) : Except CoreError (ℕ → ℕ → ℝ) :=
  Except.ok (tridiagonal_matrix s)

/-- The constructor as a fallible step: `__init__` stores its arguments and
calls `_prepare`; it performs no validation of `boundary_condition` (or of any
other field), so it accepts every configuration. -/
def beaded_string_init (s : BeadedString) : Except CoreError BeadedString :=
  Except.ok s

/-- Method `_omega_squared`: `w2, _ = np.linalg.eig(matrix); w2.sort(); return w2`.
The eigenvalue computation is the external routine `np.linalg.eig`; its
computed result enters as the parameter `eigvals`. The method sorts the
computed values ascending and returns them unchanged: there is no clamping of
negative values and no error is raised. -/
def omega_squared (eigvals : List ℝ) : List ℝ :=
  eigvals.insertionSort (· ≤ ·)

/-- Method `_omega(p) = np.sqrt(self._omega_squared[p - 1])`. The stored spectrum is
abstracted as a function `w2 : ℕ → ℝ` (lookups are made at indices `p - 1` for
the 1-indexed modes `p ≥ 1` drawn from `normal_modes`). -/
def omega (w2 : ℕ → ℝ) (p : ℕ) : ℝ :=
  Real.sqrt (w2 (p - 1))

/-- Method `_normal_mode_p_for_mass_n(p, n)`: branches on the boundary condition;
`Fixed` or `Free` gives `p*n*π/(N+1)`, every other value takes the `else`
branch which rebinds `p` to `p - 1` and returns `((p-1) + 1/2)*n*π/(N+1)`. -/
def normal_mode_p_for_mass_n (s : BeadedString) (p n : ℕ) : ℝ :=
  if s.boundary_condition = BOUNDARY_FIXED ∨ s.boundary_condition = BOUNDARY_FREE then
    (p * n * Real.pi) / (s.number_of_masses + 1)
  else
    (((p : ℝ) - 1) + 1 / 2) * n * Real.pi / (s.number_of_masses + 1)

/-- The phase offset `phi` computed at the top of
`_position_for_mass_n_at_time_t`: `0` when the boundary condition is `Fixed`
or `Mixed`, `π / 2` for every other value. -/
def phi (s : BeadedString) : ℝ :=
  if s.boundary_condition = BOUNDARY_FIXED ∨ s.boundary_condition = BOUNDARY_MIXED then 0
  else Real.pi / 2

/-- Library routine `np.radians`: degrees-to-radians conversion, `x * π / 180`. -/
def radians (x : ℝ) : ℝ :=
  x * Real.pi / 180

/-- Method `_position_for_mass_n_at_time_t(n, t)`: the sum over `p` in
`self._normal_modes` of
`amplitude * sin(argument(p, n) + phi) * cos(radians(omega(p) * t * speed))`. -/
def position_for_mass_n_at_time_t (s : BeadedString) (w2 : ℕ → ℝ) (n t : ℕ) : ℝ :=
  (s.normal_modes.map (fun p =>
    s.amplitude *
      Real.sin (normal_mode_p_for_mass_n s p n + phi s) *
      Real.cos (radians (omega w2 p * t * s.speed)))).sum

/-- Method `_beads_coordinates`: `X = [-longitude/2 + n * separation for n in 0..N+1]`
and `Y = [0, ...]`, both of length `N + 2`. -/
def beads_coordinates (s : BeadedString) : List ℝ × List ℝ :=
  ((List.range (s.number_of_masses + 2)).map
      (fun (n : ℕ) => -s.longitude / 2 + (n : ℝ) * separation s),
   (List.range (s.number_of_masses + 2)).map (fun _ => (0 : ℝ)))

/-- Method `_build_frames`: one frame per `t` in `range(number_of_frames)`, each frame
the pair of the fixed x-coordinates `X_0` and the y-displacements computed by
`_position_for_mass_n_at_time_t` for `n` in `range(len(X_0))`. -/
def build_frames (s : BeadedString) (w2 : ℕ → ℝ) : List (List ℝ × List ℝ) :=
  (List.range s.number_of_frames).map (fun t =>
    ((beads_coordinates s).1,
     (List.range (beads_coordinates s).1.length).map
       (fun n => position_for_mass_n_at_time_t s w2 n t)))

/-! Concrete configurations used to instantiate theorems with hypotheses. -/

/-- A concrete configuration with the Fixed boundary condition. -/
def cfgFixed : BeadedString :=
  { number_of_masses := 3, normal_modes := [1, 2], boundary_condition := BOUNDARY_FIXED,
    longitude := 1, amplitude := 1, number_of_frames := 4, speed := 1 }

/-- A concrete configuration with the Free boundary condition. -/
def cfgFree : BeadedString :=
  { number_of_masses := 2, normal_modes := [1, 2], boundary_condition := BOUNDARY_FREE,
    longitude := 1, amplitude := 2, number_of_frames := 3, speed := 1 }

/-- A concrete configuration with the Mixed boundary condition. -/
def cfgMixed : BeadedString :=
  { number_of_masses := 2, normal_modes := [1], boundary_condition := BOUNDARY_MIXED,
    longitude := 1, amplitude := 1, number_of_frames := 2, speed := 1 }

/-- A concrete configuration whose boundary condition `7` is outside
`{BOUNDARY_FIXED, BOUNDARY_FREE, BOUNDARY_MIXED}`. -/
def cfgOutOfRange : BeadedString :=
  { number_of_masses := 1, normal_modes := [1], boundary_condition := 7,
    longitude := 1, amplitude := 1, number_of_frames := 1, speed := 0 }

/-- A concrete configuration with zero masses. -/
def cfgZeroMasses : BeadedString :=
  { number_of_masses := 0, normal_modes := [], boundary_condition := BOUNDARY_FIXED,
    longitude := 1, amplitude := 1, number_of_frames := 1, speed := 1 }

/-- A concrete configuration with an empty mode set. -/
def cfgEmptyModes : BeadedString :=
  { number_of_masses := 2, normal_modes := [], boundary_condition := BOUNDARY_MIXED,
    longitude := 1, amplitude := 5, number_of_frames := 3, speed := 2 }

/-! Helper lemmas shared by several claims. -/

/-- Closed form for an in-range entry of the tridiagonal matrix. -/
theorem tridiagonal_entry (s : BeadedString) (i j : ℕ)
    (hi : i < s.number_of_masses) (hj : j < s.number_of_masses) :
    tridiagonal_matrix s i j =
      if i = j then 2 else if j = i + 1 ∨ i = j + 1 then -1 else 0 := by
  unfold tridiagonal_matrix np_eye
  split_ifs <;> first | omega | norm_num

/-- Multiplication by a constant distributes over a list sum of mapped terms. -/
theorem sum_map_mul_left {α : Type} (l : List α) (a : ℝ) (f : α → ℝ) :
    (l.map (fun x => a * f x)).sum = a * (l.map f).sum := by
  induction l with
  | nil => simp
  | cons x xs ih =>
    simp only [List.map_cons, List.sum_cons, ih]
    ring

/-- C3: for every configuration with at least one mass, the coupling matrix
built by `_tridiagonal_matrix` is an `N × N` symmetric matrix with every
diagonal entry `2`, every entry adjacent to the diagonal `-1` and every other
entry `0`; and the construction reads only the mass count, so two
configurations with the same mass count (any boundary conditions) get the
identical matrix. -/
theorem coupling_matrix_entries (s : BeadedString) (hN : 1 ≤ s.number_of_masses) :
    (∀ i j, i < s.number_of_masses → j < s.number_of_masses →
        tridiagonal_matrix s i j = tridiagonal_matrix s j i) ∧
    (∀ i, i < s.number_of_masses → tridiagonal_matrix s i i = 2) ∧
    (∀ i j, i < s.number_of_masses → j < s.number_of_masses →
        (j = i + 1 ∨ i = j + 1) → tridiagonal_matrix s i j = -1) ∧
    (∀ i j, i < s.number_of_masses → j < s.number_of_masses →
        i ≠ j → ¬(j = i + 1 ∨ i = j + 1) → tridiagonal_matrix s i j = 0) ∧
    (∀ s' : BeadedString, s'.number_of_masses = s.number_of_masses →
        tridiagonal_matrix s' = tridiagonal_matrix s) := by
  refine ⟨?_, ?_, ?_, ?_, ?_⟩
  · intro i j hi hj
    rw [tridiagonal_entry s i j hi hj, tridiagonal_entry s j i hj hi]
    split_ifs <;> first | omega | norm_num
  · intro i hi
    rw [tridiagonal_entry s i i hi hi]
    simp
  · intro i j hi hj hadj
    rw [tridiagonal_entry s i j hi hj]
    split_ifs <;> first | omega | rfl
  · intro i j hi hj hne hadj
    rw [tridiagonal_entry s i j hi hj]
    split_ifs <;> first | omega | rfl
  · intro s' h
    funext i j
    unfold tridiagonal_matrix np_eye
    rw [h]

/-- Witness for `coupling_matrix_entries` at the concrete configuration
`cfgFixed` (three masses): the diagonal entry `(0, 0)` is `2`. -/
theorem coupling_matrix_entries_witness : tridiagonal_matrix cfgFixed 0 0 = 2 :=
  (coupling_matrix_entries cfgFixed (by decide)).2.1 0 (by decide)

/-- C2: the mode-shape argument is `p*n*π/(N+1)` when the boundary condition
is Fixed or Free and `((p-1) + 1/2)*n*π/(N+1)` when Mixed, while the phase
offset is `0` when the boundary condition is Fixed or Mixed and `π/2` when
Free: the two branchings group the boundary conditions differently. -/
theorem mode_shape_and_phase_branches (s : BeadedString) (p n : ℕ) :
    ((s.boundary_condition = BOUNDARY_FIXED ∨ s.boundary_condition = BOUNDARY_FREE) →
      normal_mode_p_for_mass_n s p n = (p * n * Real.pi) / (s.number_of_masses + 1)) ∧
    (s.boundary_condition = BOUNDARY_MIXED →
      normal_mode_p_for_mass_n s p n =
        (((p : ℝ) - 1) + 1 / 2) * n * Real.pi / (s.number_of_masses + 1)) ∧
    ((s.boundary_condition = BOUNDARY_FIXED ∨ s.boundary_condition = BOUNDARY_MIXED) →
      phi s = 0) ∧
    (s.boundary_condition = BOUNDARY_FREE → phi s = Real.pi / 2) := by
  unfold normal_mode_p_for_mass_n phi BOUNDARY_FIXED BOUNDARY_FREE BOUNDARY_MIXED
  refine ⟨fun h => ?_, fun h => ?_, fun h => ?_, fun h => ?_⟩ <;>
    split_ifs <;> simp_all

/-- C9: under the Fixed boundary condition, for the wall index `n = 0` the
mode-shape argument is `0` for every mode `p`, the phase offset is `0`, and
the displacement at `n = 0` is `0` for every spectrum, mode set and frame. -/
theorem fixed_wall_zero (s : BeadedString) (w2 : ℕ → ℝ) (t : ℕ)
    (hb : s.boundary_condition = BOUNDARY_FIXED) :
    (∀ p, normal_mode_p_for_mass_n s p 0 = 0) ∧ phi s = 0 ∧
      position_for_mass_n_at_time_t s w2 0 t = 0 := by
  have harg : ∀ p, normal_mode_p_for_mass_n s p 0 = 0 := by
    intro p
    unfold normal_mode_p_for_mass_n
    rw [if_pos (Or.inl hb)]
    simp
  have hphi : phi s = 0 := by
    unfold phi
    rw [if_pos (Or.inl hb)]
  refine ⟨harg, hphi, ?_⟩
  unfold position_for_mass_n_at_time_t
  apply List.sum_eq_zero
  intro x hx
  simp only [List.mem_map] at hx
  obtain ⟨p, _, rfl⟩ := hx
  rw [harg p, hphi]
  simp

/-- Witness for `fixed_wall_zero` at the concrete configuration `cfgFixed`:
the wall displacement at frame `0` is `0`. -/
theorem fixed_wall_zero_witness :
    position_for_mass_n_at_time_t cfgFixed (fun _ => 2) 0 0 = 0 :=
  (fixed_wall_zero cfgFixed (fun _ => 2) 0 rfl).2.2

/-- The TimeEvolutionEngine displacement formula written exactly as the
specification words it:
`y(n, t) = amplitude * Σ over p in selectedModes of
sin(argument(p, n) + phaseOffset) * cos(toRadians(ω(p) * t * speed))`,
with `ω(p) = sqrt(spectrum[p - 1])` for the 1-indexed mode `p`, the sine
argument left in radians and only the cosine argument converted from degrees
to radians. Stated for comparison with `position_for_mass_n_at_time_t`, the
definition taken from the source. -/
def spec_displacement (s : BeadedString) (w2 : ℕ → ℝ) (n t : ℕ) : ℝ :=
  s.amplitude * (s.normal_modes.map (fun p =>
    Real.sin (normal_mode_p_for_mass_n s p n + phi s) *
      Real.cos (radians (Real.sqrt (w2 (p - 1)) * t * s.speed)))).sum

/-- C1: for every configuration, spectrum, mass index and frame index, the
displacement computed by `_position_for_mass_n_at_time_t` equals the
specification's formula `amplitude * Σ_p sin(argument + phaseOffset) *
cos(toRadians(ω(p) * t * speed))` with `ω(p) = sqrt(spectrum[p-1])`: the
amplitude factors out of the per-mode sum and the degree-to-radian conversion
applies to the cosine argument only. -/
theorem displacement_matches_spec_formula (s : BeadedString) (w2 : ℕ → ℝ) (n t : ℕ) :
    position_for_mass_n_at_time_t s w2 n t = spec_displacement s w2 n t := by
  unfold position_for_mass_n_at_time_t spec_displacement omega
  simp only [mul_assoc]
  exact sum_map_mul_left _ _ _

/-- C10: under the Free boundary condition the wall at `n = 0` is not held at
zero: at frame `t = 0` the displacement at `n = 0` equals the amplitude times
the number of selected modes, and this is nonzero whenever the amplitude is
nonzero and the mode set is non-empty. -/
theorem free_wall_nonzero (s : BeadedString) (w2 : ℕ → ℝ)
    (hb : s.boundary_condition = BOUNDARY_FREE) :
    position_for_mass_n_at_time_t s w2 0 0 =
      s.amplitude * s.normal_modes.length ∧
    (s.amplitude ≠ 0 → s.normal_modes ≠ [] →
      position_for_mass_n_at_time_t s w2 0 0 ≠ 0) := by
  have harg : ∀ p : ℕ, normal_mode_p_for_mass_n s p 0 = 0 := by
    intro p
    unfold normal_mode_p_for_mass_n
    rw [if_pos (Or.inr hb)]
    simp
  have hphi : phi s = Real.pi / 2 := by
    unfold phi
    rw [if_neg]
    rw [hb]
    unfold BOUNDARY_FREE BOUNDARY_FIXED BOUNDARY_MIXED
    decide
  have hmain : position_for_mass_n_at_time_t s w2 0 0 =
      s.amplitude * s.normal_modes.length := by
    unfold position_for_mass_n_at_time_t
    have hmap : s.normal_modes.map (fun p =>
        s.amplitude * Real.sin (normal_mode_p_for_mass_n s p 0 + phi s) *
          Real.cos (radians (omega w2 p * (0 : ℕ) * s.speed))) =
        s.normal_modes.map (fun _ => s.amplitude) := by
      apply List.map_congr_left
      intro p _
      rw [harg p, hphi]
      simp [radians]
    rw [hmap, List.map_const', List.sum_replicate, nsmul_eq_mul]
    ring
  refine ⟨hmain, fun ha hne => ?_⟩
  rw [hmain]
  apply mul_ne_zero ha
  simpa using hne

/-- Witness for `free_wall_nonzero` at the concrete configuration `cfgFree`
(amplitude `2`, two selected modes): the wall displacement at frame `0` is
nonzero. -/
theorem free_wall_nonzero_witness :
    position_for_mass_n_at_time_t cfgFree (fun _ => 2) 0 0 ≠ 0 :=
  (free_wall_nonzero cfgFree (fun _ => 2) rfl).2 (by norm_num [cfgFree])
    (by simp [cfgFree])

/-- C7: with an empty selected-mode list no error arises and every computed
displacement is `0`: the position function returns `0` at every mass index and
frame, and every frame built by `_build_frames` has all-zero y-values. -/
theorem empty_modes_all_zero (s : BeadedString) (w2 : ℕ → ℝ)
    (h : s.normal_modes = []) :
    (∀ n t, position_for_mass_n_at_time_t s w2 n t = 0) ∧
    (∀ f ∈ build_frames s w2, ∀ y ∈ f.2, y = 0) := by
  have hpos : ∀ n t, position_for_mass_n_at_time_t s w2 n t = 0 := by
    intro n t
    unfold position_for_mass_n_at_time_t
    rw [h]
    simp
  refine ⟨hpos, ?_⟩
  intro f hf y hy
  unfold build_frames at hf
  simp only [List.mem_map] at hf
  obtain ⟨t, _, rfl⟩ := hf
  simp only [List.mem_map] at hy
  obtain ⟨n, _, rfl⟩ := hy
  exact hpos n t

/-- Witness for `empty_modes_all_zero` at the concrete configuration
`cfgEmptyModes`: the displacement of mass `1` at frame `2` is `0`. -/
theorem empty_modes_all_zero_witness :
    position_for_mass_n_at_time_t cfgEmptyModes (fun _ => 1) 1 2 = 0 :=
  (empty_modes_all_zero cfgEmptyModes (fun _ => 1) rfl).1 1 2

/-- C8: the frame sequence has exactly `number_of_frames` frames, every frame
carries the same x-coordinate list, that list has length `N + 2`, and its
`n`-th entry is `-longitude/2 + n * (longitude / (N + 1))`. -/
theorem frame_sequence_shape (s : BeadedString) (w2 : ℕ → ℝ) :
    (build_frames s w2).length = s.number_of_frames ∧
    (∀ f ∈ build_frames s w2, f.1 = (beads_coordinates s).1) ∧
    (beads_coordinates s).1.length = s.number_of_masses + 2 ∧
    (∀ n, n < s.number_of_masses + 2 →
      (beads_coordinates s).1.getD n 0 =
        -s.longitude / 2 + n * (s.longitude / (s.number_of_masses + 1))) := by
  refine ⟨?_, ?_, ?_, ?_⟩
  · simp [build_frames]
  · intro f hf
    unfold build_frames at hf
    simp only [List.mem_map] at hf
    obtain ⟨t, _, rfl⟩ := hf
    rfl
  · unfold beads_coordinates
    rw [List.length_map, List.length_range]
  · intro n hn
    unfold beads_coordinates separation
    rw [List.getD_eq_getElem?_getD, List.getElem?_map, List.getElem?_range hn]
    rfl

/-- C4 counterexample: a computed eigenvalue of `-1/10^10` is negative with
magnitude below the claimed `1e-9` tolerance, yet `_omega_squared` returns it
unchanged instead of clamping it to `0` (and a fortiori no value ever raises
`NumericInstability`: the method only sorts and returns). -/
theorem omega_squared_no_clamping_counterexample :
    omega_squared [-(1 / 10000000000 : ℝ)] = [-(1 / 10000000000 : ℝ)] ∧
    |(-(1 / 10000000000 : ℝ))| < 1 / 1000000000 ∧
    -(1 / 10000000000 : ℝ) ≠ (0 : ℝ) := by
  refine ⟨rfl, by rw [abs_lt]; norm_num, by norm_num⟩

/-- C4 amended: `_omega_squared` returns the computed eigenvalue list sorted
ascending and otherwise unchanged (a permutation of the input): negative
computed values are neither clamped to `0` nor rejected. -/
theorem omega_squared_sorted_perm (eigvals : List ℝ) :
    (omega_squared eigvals).Sorted (· ≤ ·) ∧ (omega_squared eigvals).Perm eigvals :=
  ⟨List.sorted_insertionSort _ _, List.perm_insertionSort _ _⟩

/-- C5 counterexample: at mass count `0` (below the claimed minimum `1`) the
matrix construction succeeds, yielding the empty matrix, instead of failing
with `InvalidMassCount`. -/
theorem mass_count_not_validated_counterexample :
    cfgZeroMasses.number_of_masses < 1 ∧
    build_tridiagonal cfgZeroMasses = Except.ok (tridiagonal_matrix cfgZeroMasses) ∧
    build_tridiagonal cfgZeroMasses ≠ Except.error CoreError.InvalidMassCount := by
  refine ⟨by decide, rfl, by simp [build_tridiagonal]⟩

/-- C5 amended: matrix construction never fails for any mass count `N : ℕ`;
in particular at `N = 0` it succeeds and every entry of the resulting matrix
is `0` (the empty matrix). -/
theorem build_tridiagonal_total (s : BeadedString) :
    build_tridiagonal s = Except.ok (tridiagonal_matrix s) ∧
    (s.number_of_masses = 0 → ∀ i j, tridiagonal_matrix s i j = 0) := by
  refine ⟨rfl, fun h i j => ?_⟩
  unfold tridiagonal_matrix np_eye
  rw [h]
  norm_num

/-- Witness for `build_tridiagonal_total` at `cfgZeroMasses`: every entry of
the mass-count-zero matrix is `0`, e.g. entry `(0, 0)`. -/
theorem build_tridiagonal_total_witness : tridiagonal_matrix cfgZeroMasses 0 0 = 0 :=
  (build_tridiagonal_total cfgZeroMasses).2 rfl 0 0

/-- C6 counterexample: the boundary-condition value `7` lies outside
`{Fixed, Free, Mixed}`, yet the constructor accepts the configuration and the
core computes a displacement under it: at mass `0`, frame `0` the computed
value is `1` (the amplitude), not an `InvalidBoundaryCondition` error. -/
theorem boundary_not_validated_counterexample :
    (cfgOutOfRange.boundary_condition ≠ BOUNDARY_FIXED ∧
     cfgOutOfRange.boundary_condition ≠ BOUNDARY_FREE ∧
     cfgOutOfRange.boundary_condition ≠ BOUNDARY_MIXED) ∧
    beaded_string_init cfgOutOfRange = Except.ok cfgOutOfRange ∧
    position_for_mass_n_at_time_t cfgOutOfRange (fun _ => 2) 0 0 = 1 := by
  refine ⟨⟨by decide, by decide, by decide⟩, rfl, ?_⟩
  unfold position_for_mass_n_at_time_t normal_mode_p_for_mass_n phi radians omega
    cfgOutOfRange BOUNDARY_FIXED BOUNDARY_FREE BOUNDARY_MIXED
  norm_num

/-- C6 amended: no boundary-condition validation exists; a configuration whose
boundary value differs from all of `{Fixed, Free, Mixed}` is accepted by the
constructor, its mode-shape argument takes the Mixed (`else`) branch and its
phase offset takes the Free (`else`) branch, so displacements are computed. -/
theorem boundary_not_validated (s : BeadedString)
    (h0 : s.boundary_condition ≠ BOUNDARY_FIXED)
    (h1 : s.boundary_condition ≠ BOUNDARY_FREE)
    (h2 : s.boundary_condition ≠ BOUNDARY_MIXED) :
    beaded_string_init s = Except.ok s ∧
    (∀ p n, normal_mode_p_for_mass_n s p n =
      (((p : ℝ) - 1) + 1 / 2) * n * Real.pi / (s.number_of_masses + 1)) ∧
    phi s = Real.pi / 2 := by
  refine ⟨rfl, fun p n => ?_, ?_⟩
  · unfold normal_mode_p_for_mass_n
    rw [if_neg (not_or.mpr ⟨h0, h1⟩)]
  · unfold phi
    rw [if_neg (not_or.mpr ⟨h0, h2⟩)]

/-- Witness for `boundary_not_validated` at `cfgOutOfRange` (boundary value
`7`): its phase offset is `π / 2`. -/
theorem boundary_not_validated_witness : phi cfgOutOfRange = Real.pi / 2 :=
  (boundary_not_validated cfgOutOfRange (by decide) (by decide) (by decide)).2.2

end

end FrequenPy
